import Mathlib

/-!
# Verification of the StudyGenie-AI study-plan generation core

A shallow embedding of `src/integrations/gemini/studyPlanService.ts`,
together with the parts of its JavaScript environment that the service
relies on: day-granularity `Date` arithmetic, the stable
`Array.prototype.sort`, `String.prototype.includes` /
`String.prototype.toLowerCase`, `JSON.parse`, and the greedy regex match
from the first opening brace to the last closing brace.

Modelling decisions, stated once here:

* Instants (`Date.getTime()`) are integers counting milliseconds since the
  epoch; calendar days are integers counting days since the epoch.  A
  `Clock` bundles the current instant `nowMs` with the calendar day
  `todayEpochDay` that the current local time falls on, abstracting over
  the time zone.
* JavaScript numbers are modelled as exact rationals (`ℚ`): the service
  only multiplies the user's daily-hours number by 0.8 or 0.5 and takes
  `Math.ceil`, which agrees with exact rational arithmetic for every
  integer daily-hours value in the double-safe range.
* `Array.prototype.sort` is stable (ES2019); the comparator
  `daysA - daysB` used by the service, with `Infinity - Infinity = NaN`
  treated as "unordered, keep input order", is the total Boolean preorder
  `JsDays.ble` below.  Any stable sort by the same preorder produces the
  same list, so the sort is embedded as a stable insertion sort.
* The remote completion call is a black box: it is passed in as a function
  `complete : String → CompletionOutcome` from the prompt to either a
  thrown error or a resolved response whose optional `content` models
  `response.choices[0]?.message?.content`.
* TypeScript types are erased at run time and the service casts the result
  of `JSON.parse` with an unchecked `as StudyPlanResult`; the value the
  caller actually receives on the parse path is therefore the raw parsed
  JSON value.  `generateStudyPlan` accordingly returns a `JsValue`, and
  the fallback result is injected by the plain encoder
  `studyPlanResultToJs`.
-/

/-- Urgency tier of a study-plan day (`'high' | 'medium' | 'low'`). -/
inductive Priority where
  | high
  | medium
  | low
deriving DecidableEq

/-- A user-declared topic of study (`Subject` in `src/pages/Index`):
`id` opaque, free-text `name`, optional `deadline` as a ms instant. -/
structure Subject where
  id : String
  name : String
  deadline : Option Int
deriving DecidableEq

/-- The input of both generation paths (`StudyFormData`). -/
structure StudyFormData where
  subjects : List Subject
  dailyHours : ℚ
deriving DecidableEq

/-- One row of the produced plan (`StudyPlanDay`). -/
structure StudyPlanDay where
  day : String
  date : String
  subject : String
  hours : ℚ
  notes : String
  priority : Priority
  resources : Option String
deriving DecidableEq

/-- The produced plan (`StudyPlanResult`). -/
structure StudyPlanResult where
  studyPlan : List StudyPlanDay
  motivationalTip : String
deriving DecidableEq

/-- The ambient wall clock: the current instant in ms since the epoch and
the calendar day (days since the epoch) that instant falls on locally. -/
structure Clock where
  nowMs : Int
  todayEpochDay : Int
deriving DecidableEq

/-- Placeholder used only as the (never reached) default of list indexing
in statements; the source indexes `availableSubjects` only in bounds. -/
def blankSubject : Subject := { id := "", name := "", deadline := none }

/-- Placeholder used only as the (never reached) default of list indexing
in statements about the produced five-day plan. -/
def blankDay : StudyPlanDay :=
  { day := "", date := "", subject := "", hours := 0, notes := "",
    priority := Priority.low, resources := none }

/-! ## Day arithmetic (`getDaysUntilDeadline`, `getNextFiveDays`) -/

/-- `1000 * 60 * 60 * 24`, the divisor in `getDaysUntilDeadline`. -/
def msPerDay : Int := 1000 * 60 * 60 * 24

/-- The value of the JavaScript expression `getDaysUntilDeadline(...)`:
a natural number of days, or `Infinity` for a missing deadline. -/
inductive JsDays where
  | fin (n : ℕ)
  | inf
deriving DecidableEq

/-- The total Boolean preorder induced by the comparator `daysA - daysB`
(`a.ble b` = "the comparator does not put `a` strictly after `b`"); the
`NaN` produced by `Infinity - Infinity` acts as 0, i.e. unordered. -/
def JsDays.ble : JsDays → JsDays → Bool
  | .fin m, .fin n => decide (m ≤ n)
  | .fin _, .inf => true
  | .inf, .fin _ => false
  | .inf, .inf => true

/-- Rendering of the number in a template literal (only the finite case is
reachable: the source only prints `daysUntil` when a deadline exists). -/
def JsDays.toStr : JsDays → String
  | .fin n => toString n
  | .inf => "Infinity"

/-- `getDaysUntilDeadline` (lines 25-34): `Infinity` without a deadline,
otherwise `Math.ceil((deadline - now) / msPerDay)` floored at `0`.
`Math.ceil(a / b)` for integer `a` and positive integer `b` is the exact
rational ceiling `-((-a).fdiv b)`. -/
def getDaysUntilDeadline (nowMs : Int) : Option Int → JsDays
  | none => JsDays.inf
  | some deadline =>
    let diffTime := deadline - nowMs
    let diffDays := -((-diffTime).fdiv msPerDay)
    if diffDays > 0 then JsDays.fin diffDays.toNat else JsDays.fin 0

/-- The `days` array of `getNextFiveDays`, indexed by `Date.getDay()`. -/
def weekdayNames : List String :=
  ["Sunday", "Monday", "Tuesday", "Wednesday", "Thursday", "Friday", "Saturday"]

/-- The `months` array of `getNextFiveDays`, indexed by `Date.getMonth()`. -/
def monthNames : List String :=
  ["Jan", "Feb", "Mar", "Apr", "May", "Jun", "Jul", "Aug", "Sep", "Oct", "Nov", "Dec"]

/-- `Date.getDay()` of an epoch day count: day 0 (1 Jan 1970) was a
Thursday, so the Sunday-based weekday index is `(d + 4) mod 7`. -/
def jsGetDay (epochDay : Int) : ℕ := ((epochDay + 4).emod 7).toNat

/-- Gregorian (year, month 1-12, day 1-31) of an epoch day count; the
standard civil-from-days computation (all intermediate divisions are on
nonnegative values). -/
def civilFromDays (epochDay : Int) : Int × ℕ × ℕ :=
  let z := epochDay + 719468
  let era := z.fdiv 146097
  let doe := z - era * 146097
  let yoe := (doe - doe / 1460 + doe / 36524 - doe / 146096) / 365
  let y := yoe + era * 400
  let doy := doe - (365 * yoe + yoe / 4 - yoe / 100)
  let mp := (5 * doy + 2) / 153
  let d := doy - (153 * mp + 2) / 5 + 1
  let m := if mp < 10 then mp + 3 else mp - 9
  (if m ≤ 2 then y + 1 else y, m.toNat, d.toNat)

/-- The `day` field of a `getNextFiveDays` entry: `days[date.getDay()]`. -/
def weekdayName (epochDay : Int) : String :=
  weekdayNames.getD (jsGetDay epochDay) ""

/-- The `date` field of a `getNextFiveDays` entry:
`` `${months[getMonth()]} ${getDate()}, ${getFullYear()}` ``. -/
def formatDateStr (epochDay : Int) : String :=
  let ymd := civilFromDays epochDay
  monthNames.getD (ymd.2.1 - 1) "" ++ " " ++ toString ymd.2.2 ++ ", " ++ toString ymd.1

/-- One entry of `getNextFiveDays`. -/
structure DayInfo where
  day : String
  date : String
deriving DecidableEq

/-- The entry of `getNextFiveDays` for offset `i` from today:
`date.setDate(today.getDate() + i)` adds `i` calendar days. -/
def dayInfoAt (todayEpochDay : Int) (i : ℕ) : DayInfo :=
  { day := weekdayName (todayEpochDay + i), date := formatDateStr (todayEpochDay + i) }

/-- `getNextFiveDays` (lines 37-55): weekday name and formatted date of
today and the following four calendar days. -/
def getNextFiveDays (todayEpochDay : Int) : List DayInfo :=
  (List.range 5).map (dayInfoAt todayEpochDay)

/-- `Date.prototype.toLocaleDateString()` as used in the prompt, modelled
as en-US `M/D/YYYY` of the instant's UTC calendar day. -/
def jsLocaleDateString (ms : Int) : String :=
  let ymd := civilFromDays (ms.fdiv msPerDay)
  toString ymd.2.1 ++ "/" ++ toString ymd.2.2 ++ "/" ++ toString ymd.1

/-! ## The deadline sort shared by both generation paths -/

/-- Stable insertion of `x` into `l`: `x` goes in front of the first
element it is `le`-below-or-tied-with... no: in front of the first `y`
with `le x y`, i.e. after every strictly smaller element and after no
strictly larger one.  Together with `sortBy` this is the unique stable
sort by `le`, which is what `Array.prototype.sort` produces. -/
def insertBy (le : α → α → Bool) (x : α) : List α → List α
  | [] => [x]
  | y :: ys => if le x y then x :: y :: ys else y :: insertBy le x ys

/-- Stable sort by the Boolean preorder `le`. -/
def sortBy (le : α → α → Bool) : List α → List α
  | [] => []
  | x :: xs => insertBy le x (sortBy le xs)

/-- The comparator of lines 61-65 and 173-177: `(a, b) => daysA - daysB`,
as the Boolean preorder "not strictly after". -/
def subjectLe (nowMs : Int) (a b : Subject) : Bool :=
  (getDaysUntilDeadline nowMs a.deadline).ble (getDaysUntilDeadline nowMs b.deadline)

/-- `[...data.subjects].sort((a, b) => daysA - daysB)`, performed
identically at lines 61-65 (prompt path) and 173-177 (fallback path). -/
def sortSubjectsByDeadline (nowMs : Int) (subjects : List Subject) : List Subject :=
  sortBy (subjectLe nowMs) subjects

/-! ## Keyword tables (`getSubjectNotes`, `getSubjectResources`) -/

/-- `pat` is an initial segment of the text. -/
def startsWithChars : List Char → List Char → Bool
  | [], _ => true
  | _ :: _, [] => false
  | p :: ps, c :: cs => p == c && startsWithChars ps cs

/-- `pat` occurs as a contiguous run somewhere in the text. -/
def hasSubChars (pat : List Char) : List Char → Bool
  | [] => startsWithChars pat []
  | c :: cs => startsWithChars pat (c :: cs) || hasSubChars pat cs

/-- `String.prototype.includes`. -/
def strIncludes (s pat : String) : Bool := hasSubChars pat.data s.data

/-- `String.prototype.toLowerCase` (ASCII case, which is all the keyword
tables compare against). -/
def jsToLower (s : String) : String := String.mk (s.data.map Char.toLower)

/-- `getSubjectNotes` (lines 127-147): study notes chosen by
case-insensitive keyword lookup on the subject name. -/
def getSubjectNotes (subject : String) : String :=
  let subjectLower := jsToLower subject
  if strIncludes subjectLower "math" then
    "Practice equations using spaced repetition, solve problem sets with increasing difficulty, and create concept maps for formulas and theorems"
  else if strIncludes subjectLower "physics" then
    "Review key concepts through visual diagrams, solve numerical problems, and watch simulations of physical phenomena"
  else if strIncludes subjectLower "chemistry" then
    "Create flashcards for chemical reactions, practice balancing equations, and review periodic table relationships"
  else if strIncludes subjectLower "biology" then
    "Draw detailed diagrams of biological systems, create concept maps for processes, and review key terminology"
  else if strIncludes subjectLower "history" || strIncludes subjectLower "social" then
    "Create timeline charts, practice active recall of key events, and analyze primary sources using the Cornell note-taking method"
  else if strIncludes subjectLower "english" || strIncludes subjectLower "literature" || strIncludes subjectLower "lang" then
    "Read assigned texts using active reading techniques, practice writing essays with clear thesis statements, and build vocabulary through contextual learning"
  else if strIncludes subjectLower "computer" || strIncludes subjectLower "programming" || strIncludes subjectLower "coding" then
    "Work on coding projects with test-driven development, debug exercises systematically, and document your learning process in a coding journal"
  else
    "Review course materials using the Feynman technique, create summary notes with mind maps, and practice retrieval with self-quizzing"

/-- `getSubjectResources` (lines 150-170): tool recommendations chosen by
the same keyword lookup. -/
def getSubjectResources (subject : String) : String :=
  let subjectLower := jsToLower subject
  if strIncludes subjectLower "math" then
    "Wolfram Alpha for equation solving, Khan Academy for tutorials, Desmos for graphing"
  else if strIncludes subjectLower "physics" then
    "PhET simulations, Brilliant.org physics courses, Gemini for problem-solving assistance"
  else if strIncludes subjectLower "chemistry" then
    "Periodic Table apps, Molecular modeling tools, ChemCollective virtual labs"
  else if strIncludes subjectLower "biology" then
    "BioDigital Human for 3D models, Labster for virtual labs, Quizlet for terminology"
  else if strIncludes subjectLower "history" || strIncludes subjectLower "social" then
    "Timeline JS for visual timelines, Google Arts & Culture for primary sources, Gemini for historical context"
  else if strIncludes subjectLower "english" || strIncludes subjectLower "literature" || strIncludes subjectLower "lang" then
    "Grammarly for writing assistance, ThesaurusAI for vocabulary, Gemini models for essay feedback"
  else if strIncludes subjectLower "computer" || strIncludes subjectLower "programming" || strIncludes subjectLower "coding" then
    "GitHub Copilot for coding assistance, LeetCode for practice, Stack Overflow for problem-solving"
  else
    "Notion AI for note organization, Anki for flashcards, Gemini for concept explanations"

/-! ## The fallback planner (`generateFallbackStudyPlan`, lines 125-249) -/

/-- Lines 179-182: the sorted subjects, or the single `"General Study"`
placeholder (whose deadline `new Date()` is the current instant) when the
user supplied none. -/
def availableSubjects (nowMs : Int) (subjects : List Subject) : List Subject :=
  let sortedSubjects := sortSubjectsByDeadline nowMs subjects
  if sortedSubjects.length > 0 then sortedSubjects
  else [{ id := "1", name := "General Study", deadline := some nowMs }]

/-- `getPriorityByDeadline` (lines 185-190). -/
def getPriorityByDeadline (nowMs : Int) (subject : Subject) : Priority :=
  let days := getDaysUntilDeadline nowMs subject.deadline
  if days.ble (JsDays.fin 7) then Priority.high
  else if days.ble (JsDays.fin 14) then Priority.medium
  else Priority.low

/-- The body of the `nextFiveDays.map((dayInfo, index) => ...)` callback
(lines 196-241).  Since `getNextFiveDays` is itself the image of
`List.range 5`, mapping with index over it is mapping this function over
`List.range 5`; `dayInfo` is recomputed here as `dayInfoAt today index`. -/
def fallbackDayAt (clock : Clock) (data : StudyFormData) (index : ℕ) : StudyPlanDay :=
  let avail := availableSubjects clock.nowMs data.subjects
  let dayInfo := dayInfoAt clock.todayEpochDay index
  if index % 2 = 0 ∧ avail.length > 1 then
    let subject1 := avail.getD (index % avail.length) blankSubject
    let subject2 := avail.getD ((index + 1) % avail.length) blankSubject
    let combinedSubjects := subject1.name ++ ", " ++ subject2.name
    let priority1 := getPriorityByDeadline clock.nowMs subject1
    let priority2 := getPriorityByDeadline clock.nowMs subject2
    let highestPriority :=
      if priority1 = Priority.high ∨ priority2 = Priority.high then Priority.high
      else if priority1 = Priority.medium ∨ priority2 = Priority.medium then Priority.medium
      else Priority.low
    let notes := subject1.name ++ ": " ++ getSubjectNotes subject1.name ++ ". " ++
      subject2.name ++ ": " ++ getSubjectNotes subject2.name ++
      (if index = 4 then " - prepare for assessment" else "")
    let resources := subject1.name ++ ": " ++ getSubjectResources subject1.name ++ ". " ++
      subject2.name ++ ": " ++ getSubjectResources subject2.name
    { day := dayInfo.day, date := dayInfo.date, subject := combinedSubjects,
      hours := data.dailyHours, notes := notes, priority := highestPriority,
      resources := some resources }
  else
    let subject := avail.getD (index % avail.length) blankSubject
    { day := dayInfo.day, date := dayInfo.date, subject := subject.name,
      hours := ((⌈data.dailyHours *
        (if getPriorityByDeadline clock.nowMs subject = Priority.high then (0.8 : ℚ)
         else (0.5 : ℚ))⌉ : ℤ) : ℚ),
      notes := getSubjectNotes subject.name ++
        (if index = 4 then " - prepare for assessment" else ""),
      priority := getPriorityByDeadline clock.nowMs subject,
      resources := some (getSubjectResources subject.name) }

/-- The fixed closing message (line 243; the emoji as the UTF-8 bytes in
the file decode). -/
def fallbackMotivationalTip : String :=
  "Remember, consistency beats intensity! Study a little every day rather than cramming. Your future self will thank you for the disciplined effort you put in today. Stay focused and believe in yourself! 🎯✨"

/-- `generateFallbackStudyPlan` (lines 125-249). -/
def generateFallbackStudyPlan (clock : Clock) (data : StudyFormData) : StudyPlanResult :=
  { studyPlan := (List.range 5).map (fallbackDayAt clock data),
    motivationalTip := fallbackMotivationalTip }

/-! ## JSON values and `JSON.parse` -/

/-- A run-time JavaScript value producible by `JSON.parse`.  Numbers are
exact rationals (see the header); object fields are kept in textual
order. -/
inductive JsValue where
  | null
  | bool (b : Bool)
  | num (q : ℚ)
  | str (s : String)
  | arr (elems : List JsValue)
  | obj (fields : List (String × JsValue))

/-- The character `\x7b` (written via its code point so that no brace
appears in a literal). -/
def openBraceChar : Char := Char.ofNat 123

/-- The character `\x7d`. -/
def closeBraceChar : Char := Char.ofNat 125

/-- JSON insignificant whitespace. -/
def isJsonWs (c : Char) : Bool :=
  c = ' ' || c = '\t' || c = '\n' || c = '\r'

/-- Drop leading JSON whitespace. -/
def skipWs : List Char → List Char
  | [] => []
  | c :: cs => if isJsonWs c then skipWs cs else c :: cs

/-- ASCII decimal digit. -/
def isDigitChar (c : Char) : Bool := '0' ≤ c && c ≤ '9'

/-- Split a maximal run of digits off the front. -/
def takeDigits : List Char → List Char × List Char
  | [] => ([], [])
  | c :: cs =>
    if isDigitChar c then
      let p := takeDigits cs
      (c :: p.1, p.2)
    else ([], c :: cs)

/-- Value of a digit run. -/
def digitsToNat (ds : List Char) : ℕ :=
  ds.foldl (fun acc c => acc * 10 + (c.toNat - 48)) 0

/-- Value of a hexadecimal digit. -/
def hexVal (c : Char) : Option ℕ :=
  if '0' ≤ c ∧ c ≤ '9' then some (c.toNat - 48)
  else if 'a' ≤ c ∧ c ≤ 'f' then some (c.toNat - 97 + 10)
  else if 'A' ≤ c ∧ c ≤ 'F' then some (c.toNat - 65 + 10)
  else none

/-- The single-character JSON string escapes. -/
def decodeEsc (c : Char) : Option Char :=
  if c = '\"' then some '\"'
  else if c = '\\' then some '\\'
  else if c = '/' then some '/'
  else if c = 'b' then some (Char.ofNat 8)
  else if c = 'f' then some (Char.ofNat 12)
  else if c = 'n' then some '\n'
  else if c = 'r' then some '\r'
  else if c = 't' then some '\t'
  else none

/-- Parse the body of a JSON string after its opening quote, returning the
decoded characters and the input after the closing quote. -/
def parseStrChars : List Char → Option (List Char × List Char)
  | [] => none
  | c :: cs =>
    if c = '\"' then some ([], cs)
    else if c = '\\' then
      match cs with
      | [] => none
      | e :: cs2 =>
        if e = 'u' then
          match cs2 with
          | h1 :: h2 :: h3 :: h4 :: cs3 =>
            match hexVal h1, hexVal h2, hexVal h3, hexVal h4 with
            | some a, some b, some c4, some d =>
              match parseStrChars cs3 with
              | some p => some (Char.ofNat (((a * 16 + b) * 16 + c4) * 16 + d) :: p.1, p.2)
              | none => none
            | _, _, _, _ => none
          | _ => none
        else
          match decodeEsc e with
          | some ch =>
            match parseStrChars cs2 with
            | some p => some (ch :: p.1, p.2)
            | none => none
          | none => none
    else if c.toNat < 32 then none
    else
      match parseStrChars cs with
      | some p => some (c :: p.1, p.2)
      | none => none

/-- Parse a JSON number (sign, integer part without leading zeros,
optional fraction, optional exponent).  The value is built with `mkRat`
out of integer arithmetic only, so that it evaluates by kernel
reduction. -/
def parseNumber (cs : List Char) : Option (ℚ × List Char) :=
  let sgn := match cs with
    | c :: rest => if c = '-' then (true, rest) else (false, cs)
    | [] => (false, cs)
  let ip := takeDigits sgn.2
  if ip.1.isEmpty then none
  else if ip.1.length > 1 ∧ ip.1.headD '0' = '0' then none
  else
    let hasDot := match ip.2 with
      | c :: _ => c = '.'
      | [] => false
    let fp := if hasDot then takeDigits (ip.2.tail) else ([], ip.2)
    if hasDot && fp.1.isEmpty then none
    else
      let hasExp := match fp.2 with
        | c :: _ => c = 'e' ∨ c = 'E'
        | [] => false
      let ep : Bool × List Char × List Char :=
        if hasExp then
          match fp.2.tail with
          | s :: rest2 =>
            if s = '+' then
              let p := takeDigits rest2
              (false, p.1, p.2)
            else if s = '-' then
              let p := takeDigits rest2
              (true, p.1, p.2)
            else
              let p := takeDigits (fp.2.tail)
              (false, p.1, p.2)
          | [] => (false, [], fp.2.tail)
        else (false, [], fp.2)
      if hasExp && ep.2.1.isEmpty then none
      else
        let mantissa : ℤ := digitsToNat (ip.1 ++ fp.1)
        let mantissa := if sgn.1 then -mantissa else mantissa
        let exp10 : ℤ := (if ep.1 then -(digitsToNat ep.2.1 : ℤ) else (digitsToNat ep.2.1 : ℤ))
          - fp.1.length
        let q : ℚ :=
          if exp10 ≥ 0 then mkRat (mantissa * (10 : ℤ) ^ exp10.toNat) 1
          else mkRat mantissa ((10 : ℕ) ^ (-exp10).toNat)
        some (q, ep.2.2)

/-- Parse the elements of a JSON array after its opening bracket (at
least one element), given the parser `pv` for a single value.  The fuel
only bounds the number of elements; `parseJson` supplies enough. -/
def parseElemsWith (pv : List Char → Option (JsValue × List Char)) :
    ℕ → List Char → Option (List JsValue × List Char)
  | 0, _ => none
  | fuel + 1, cs =>
    match pv cs with
    | some (v, cs2) =>
      match skipWs cs2 with
      | c :: cs3 =>
        if c = ',' then
          match parseElemsWith pv fuel cs3 with
          | some p => some (v :: p.1, p.2)
          | none => none
        else if c = ']' then some ([v], cs3)
        else none
      | [] => none
    | none => none

/-- Parse the fields of a JSON object after its opening brace (at least
one field), given the parser `pv` for a single value. -/
def parseFieldsWith (pv : List Char → Option (JsValue × List Char)) :
    ℕ → List Char → Option (List (String × JsValue) × List Char)
  | 0, _ => none
  | fuel + 1, cs =>
    match skipWs cs with
    | c :: rest =>
      if c = '\"' then
        match parseStrChars rest with
        | some kp =>
          match skipWs kp.2 with
          | c2 :: cs3 =>
            if c2 = ':' then
              match pv cs3 with
              | some (v, cs4) =>
                match skipWs cs4 with
                | c3 :: cs5 =>
                  if c3 = ',' then
                    match parseFieldsWith pv fuel cs5 with
                    | some p => some ((String.mk kp.1, v) :: p.1, p.2)
                    | none => none
                  else if c3 = closeBraceChar then some ([(String.mk kp.1, v)], cs5)
                  else none
                | [] => none
              | none => none
            else none
          | [] => none
        | none => none
      else none
    | [] => none

/-- Parse one JSON value (leading whitespace allowed), returning it and
the remaining input.  The fuel bounds the nesting depth and the element
counts; `parseJson` supplies one unit per input character plus one, which
is always enough because each nesting level and each element consumes at
least one character. -/
def parseVal : ℕ → List Char → Option (JsValue × List Char)
  | 0, _ => none
  | fuel + 1, cs =>
    match skipWs cs with
    | [] => none
    | c :: rest =>
      if c = openBraceChar then
        match skipWs rest with
        | c2 :: rest2 =>
          if c2 = closeBraceChar then some (JsValue.obj [], rest2)
          else
            match parseFieldsWith (parseVal fuel) fuel (skipWs rest) with
            | some p => some (JsValue.obj p.1, p.2)
            | none => none
        | [] => none
      else if c = '[' then
        match skipWs rest with
        | c2 :: rest2 =>
          if c2 = ']' then some (JsValue.arr [], rest2)
          else
            match parseElemsWith (parseVal fuel) fuel (skipWs rest) with
            | some p => some (JsValue.arr p.1, p.2)
            | none => none
        | [] => none
      else if c = '\"' then
        match parseStrChars rest with
        | some p => some (JsValue.str (String.mk p.1), p.2)
        | none => none
      else if c = 't' then
        match rest with
        | 'r' :: 'u' :: 'e' :: r => some (JsValue.bool true, r)
        | _ => none
      else if c = 'f' then
        match rest with
        | 'a' :: 'l' :: 's' :: 'e' :: r => some (JsValue.bool false, r)
        | _ => none
      else if c = 'n' then
        match rest with
        | 'u' :: 'l' :: 'l' :: r => some (JsValue.null, r)
        | _ => none
      else
        match parseNumber (c :: rest) with
        | some p => some (JsValue.num p.1, p.2)
        | none => none

/-- `JSON.parse`: one value, with nothing but whitespace after it. -/
def parseJson (s : String) : Option JsValue :=
  match parseVal (s.length + 1) s.data with
  | some (v, rest) => if (skipWs rest).isEmpty then some v else none
  | none => none

/-! ## The greedy brace match `content.match(/\x7b[\s\S]*\x7d/)` -/

/-- Index of the first occurrence of `c`. -/
def firstIdxOf (c : Char) : List Char → Option ℕ
  | [] => none
  | x :: xs => if x = c then some 0 else (firstIdxOf c xs).map (· + 1)

/-- Index of the last occurrence of `c`. -/
def lastIdxOf (c : Char) (cs : List Char) : Option ℕ :=
  (firstIdxOf c cs.reverse).map (fun i => cs.length - 1 - i)

/-- `content.match(/\x7b[\s\S]*\x7d/)` (line 109): the leftmost starting
brace admitting a match is the first `\x7b` in the string, and greediness
extends the match to the last `\x7d`; there is a match exactly when the
first `\x7b` lies before the last `\x7d`. -/
def jsonMatch (s : String) : Option String :=
  match firstIdxOf openBraceChar s.data, lastIdxOf closeBraceChar s.data with
  | some i, some j =>
    if i < j then some (String.mk ((s.data.drop i).take (j - i + 1))) else none
  | _, _ => none

/-! ## The Prompt/Response Adapter (`generateStudyPlan`, lines 58-122) -/

/-- Outcome of `await gemini.chat.completions.create(...)`: either the
call threw, or it resolved and `choices[0]?.message?.content` is the
optional content. -/
inductive CompletionOutcome where
  | error (msg : String)
  | success (content : Option String)

/-- One line of `subjectInfo` (lines 68-75). -/
def subjectLine (nowMs : Int) (s : Subject) : String :=
  let daysUntil := getDaysUntilDeadline nowMs s.deadline
  let deadlineInfo := match s.deadline with
    | some dl => "deadline in " ++ daysUntil.toStr ++ " days (" ++ jsLocaleDateString dl ++ ")"
    | none => "no specific deadline"
  "- " ++ s.name ++ ": " ++ deadlineInfo

/-- `subjectInfo` (lines 68-75): the sorted subjects, one line each. -/
def buildSubjectInfo (nowMs : Int) (subjects : List Subject) : String :=
  String.intercalate "\n" ((sortSubjectsByDeadline nowMs subjects).map (subjectLine nowMs))

/-- The prompt template (lines 81-89); literal braces are written as
`\x7b` and `\x7d`. -/
def buildPrompt (clock : Clock) (data : StudyFormData) : String :=
  let subjectInfo := buildSubjectInfo clock.nowMs data.subjects
  let nextFiveDays := getNextFiveDays clock.todayEpochDay
  let day0 := nextFiveDays.getD 0 { day := "", date := "" }
  "Create a detailed 5-day study plan for a student with the following subjects:\n" ++
  subjectInfo ++
  "\n\nThe student can study " ++ toString data.dailyHours ++ " hours per day.\n\n" ++
  "For each day, provide the following:\n" ++
  "1. Assign multiple subjects per day when appropriate (comma-separated)\n" ++
  "2. Allocate study hours (not exceeding daily limit)\n" ++
  "3. Create detailed, subject-specific study notes with actionable techniques\n" ++
  "4. Assign priority (high/medium/low) based on deadline proximity\n" ++
  "5. Include specific learning strategies tailored to each subject type (math, science, language, etc.)\n" ++
  "\nPrioritize subjects with closer deadlines. Distribute study time effectively across all subjects, with more time for subjects with closer deadlines.\n\n" ++
  "Format your response as a JSON object with this structure:\n\x7b\n  \"studyPlan\": [\n    \x7b\n      \"day\": \"" ++
  day0.day ++ "\",\n      \"date\": \"" ++ day0.date ++
  "\",\n      \"subject\": \"Subject Name\",\n      \"hours\": 2,\n      \"notes\": \"Detailed study notes with specific techniques\",\n      \"priority\": \"high\",\n      \"resources\": \"Recommended tools and resources\"\n    \x7d,\n    // More days...\n  ],\n  \"motivationalTip\": \"A motivational message for the student\"\n\x7d"

/-- The `try` block of `generateStudyPlan` (lines 59-115): an `Except`
value standing for "returned normally" versus "threw".  The three `throw`
sites are the missing content (line 105), the failed brace match (line
111) and a `JSON.parse` syntax error (line 114); a thrown remote-call
error propagates unchanged. -/
def tryGenerateStudyPlan (clock : Clock) (complete : String → CompletionOutcome)
    (data : StudyFormData) : Except String JsValue :=
  let prompt := buildPrompt clock data
  match complete prompt with
  | CompletionOutcome.error e => Except.error e
  | CompletionOutcome.success none => Except.error "No response from Gemini"
  | CompletionOutcome.success (some content) =>
    match jsonMatch content with
    | none => Except.error "Could not parse JSON from Gemini response"
    | some jsonStr =>
      match parseJson jsonStr with
      | none => Except.error "SyntaxError: JSON.parse"
      | some studyPlanData => Except.ok studyPlanData

/-- "high" / "medium" / "low". -/
def priorityToStr : Priority → String
  | Priority.high => "high"
  | Priority.medium => "medium"
  | Priority.low => "low"

/-- The run-time JavaScript object of a `StudyPlanDay` produced by the
fallback planner. -/
def studyPlanDayToJs (d : StudyPlanDay) : JsValue :=
  JsValue.obj
    ([("day", JsValue.str d.day), ("date", JsValue.str d.date),
      ("subject", JsValue.str d.subject), ("hours", JsValue.num d.hours),
      ("notes", JsValue.str d.notes),
      ("priority", JsValue.str (priorityToStr d.priority))] ++
     (match d.resources with
      | some r => [("resources", JsValue.str r)]
      | none => []))

/-- The run-time JavaScript object of a `StudyPlanResult`. -/
def studyPlanResultToJs (r : StudyPlanResult) : JsValue :=
  JsValue.obj
    [("studyPlan", JsValue.arr (r.studyPlan.map studyPlanDayToJs)),
     ("motivationalTip", JsValue.str r.motivationalTip)]

/-- `generateStudyPlan` (lines 58-122): the `try` block, with every
`catch`-ed failure replaced by the fallback plan.  The value returned on
the success path is the raw `JSON.parse` result (the `as StudyPlanResult`
cast checks nothing at run time). -/
def generateStudyPlan (clock : Clock) (complete : String → CompletionOutcome)
    (data : StudyFormData) : JsValue :=
  match tryGenerateStudyPlan clock complete data with
  | Except.ok studyPlanData => studyPlanData
  | Except.error _ => studyPlanResultToJs (generateFallbackStudyPlan clock data)

/-- The four failure situations of the generation path: the remote call
threw, the response had no content, the content had no brace pair, or the
extracted substring was not valid JSON. -/
def fallbackTriggered (clock : Clock) (complete : String → CompletionOutcome)
    (data : StudyFormData) : Prop :=
  (∃ e, complete (buildPrompt clock data) = CompletionOutcome.error e) ∨
  complete (buildPrompt clock data) = CompletionOutcome.success none ∨
  (∃ c, complete (buildPrompt clock data) = CompletionOutcome.success (some c) ∧
    jsonMatch c = none) ∨
  (∃ c s, complete (buildPrompt clock data) = CompletionOutcome.success (some c) ∧
    jsonMatch c = some s ∧ parseJson s = none)

/-- Spec-side definition (4.2): the highest of two priorities under the
order high > medium > low, to be compared with the nested conditional the
code uses. -/
def Priority.rank : Priority → ℕ
  | Priority.high => 2
  | Priority.medium => 1
  | Priority.low => 0

/-- Spec-side definition: the maximum of two priorities under
high > medium > low. -/
def specHighestPriority (p q : Priority) : Priority :=
  if q.rank ≤ p.rank then p else q

/-- Shape check: a parsed JSON value that structurally matches
`StudyPlanDay` (the optional `resources` field is not required). -/
def isDayShape : JsValue → Bool
  | JsValue.obj fields =>
    (match fields.lookup "day" with
     | some (JsValue.str _) => true
     | _ => false) &&
    (match fields.lookup "date" with
     | some (JsValue.str _) => true
     | _ => false) &&
    (match fields.lookup "subject" with
     | some (JsValue.str _) => true
     | _ => false) &&
    (match fields.lookup "hours" with
     | some (JsValue.num _) => true
     | _ => false) &&
    (match fields.lookup "notes" with
     | some (JsValue.str _) => true
     | _ => false) &&
    (match fields.lookup "priority" with
     | some (JsValue.str p) => p == "high" || p == "medium" || p == "low"
     | _ => false)
  | _ => false

/-- Shape check: a parsed JSON value that structurally matches
`StudyPlanResult`. -/
def isStudyPlanResultShape : JsValue → Bool
  | JsValue.obj fields =>
    (match fields.lookup "studyPlan" with
     | some (JsValue.arr days) => days.all isDayShape
     | _ => false) &&
    (match fields.lookup "motivationalTip" with
     | some (JsValue.str _) => true
     | _ => false)
  | _ => false

/-! ## Lemmas -/

set_option maxRecDepth 8000

theorem insertBy_perm (le : α → α → Bool) (x : α) (l : List α) :
    (insertBy le x l).Perm (x :: l) := by
  induction l with
  | nil => simp [insertBy]
  | cons y ys ih =>
    by_cases h : le x y
    · simp [insertBy, h]
    · simp only [insertBy, if_neg h]
      exact (ih.cons y).trans (List.Perm.swap x y ys)

theorem sortBy_perm (le : α → α → Bool) (l : List α) : (sortBy le l).Perm l := by
  induction l with
  | nil => exact List.Perm.refl _
  | cons x xs ih => exact (insertBy_perm le x (sortBy le xs)).trans (ih.cons x)

theorem insertBy_pairwise {le : α → α → Bool}
    (htotal : ∀ a b, le a b = true ∨ le b a = true)
    (htrans : ∀ a b c, le a b = true → le b c = true → le a c = true)
    (x : α) {l : List α} (h : l.Pairwise (fun a b => le a b = true)) :
    (insertBy le x l).Pairwise (fun a b => le a b = true) := by
  induction l with
  | nil => simp [insertBy]
  | cons y ys ih =>
    obtain ⟨hy, hys⟩ := List.pairwise_cons.mp h
    by_cases hxy : le x y = true
    · have : (insertBy le x (y :: ys)) = x :: y :: ys := by simp [insertBy, hxy]
      rw [this]
      refine List.Pairwise.cons ?_ h
      intro z hz
      rcases List.mem_cons.mp hz with rfl | hz2
      · exact hxy
      · exact htrans x y z hxy (hy z hz2)
    · have : (insertBy le x (y :: ys)) = y :: insertBy le x ys := by simp [insertBy, hxy]
      rw [this]
      have hyx : le y x = true := (htotal x y).resolve_left hxy
      refine List.Pairwise.cons ?_ (ih hys)
      intro z hz
      have hz3 : z = x ∨ z ∈ ys := by
        simpa using (insertBy_perm le x ys).mem_iff.mp hz
      rcases hz3 with rfl | hz4
      · exact hyx
      · exact hy z hz4

theorem sortBy_pairwise {le : α → α → Bool}
    (htotal : ∀ a b, le a b = true ∨ le b a = true)
    (htrans : ∀ a b c, le a b = true → le b c = true → le a c = true)
    (l : List α) : (sortBy le l).Pairwise (fun a b => le a b = true) := by
  induction l with
  | nil => simp [sortBy]
  | cons x xs ih => exact insertBy_pairwise htotal htrans x ih

theorem JsDays.ble_total (a b : JsDays) : a.ble b = true ∨ b.ble a = true := by
  cases a <;> cases b <;> simp [JsDays.ble] <;> omega

theorem JsDays.ble_trans (a b c : JsDays) :
    a.ble b = true → b.ble c = true → a.ble c = true := by
  cases a <;> cases b <;> cases c <;> simp [JsDays.ble] <;> omega

theorem subjectLe_total (nowMs : Int) (a b : Subject) :
    subjectLe nowMs a b = true ∨ subjectLe nowMs b a = true :=
  JsDays.ble_total _ _

theorem subjectLe_trans (nowMs : Int) (a b c : Subject) :
    subjectLe nowMs a b = true → subjectLe nowMs b c = true → subjectLe nowMs a c = true :=
  JsDays.ble_trans _ _ _

theorem fallback_studyPlan_getD (clock : Clock) (data : StudyFormData) {i : ℕ}
    (hi : i < 5) (dflt : StudyPlanDay) :
    (generateFallbackStudyPlan clock data).studyPlan.getD i dflt =
      fallbackDayAt clock data i := by
  interval_cases i <;> rfl

/-- C7 (amended): both generation paths sort with the comparator
`daysA - daysB`, embedded once as `sortSubjectsByDeadline` and called by
`buildSubjectInfo` (prompt path, lines 61-65) and by `availableSubjects`
(fallback path, lines 173-177).  The result is a permutation of the input
that is pairwise nondecreasing in days-until-deadline; a missing deadline
has `Infinity` days (and so sorts after every dated subject); an
already-passed deadline floors to zero days; and a subject with strictly
more days-until-deadline than another never appears before it.  (The
original claim's "earlier deadline appears no later" holds only at day
granularity; see the counterexample.) -/
theorem sortSubjectsByDeadline_spec :
    (∀ (nowMs : Int) (subjects : List Subject),
      (sortSubjectsByDeadline nowMs subjects).Perm subjects) ∧
    (∀ (nowMs : Int) (subjects : List Subject),
      (sortSubjectsByDeadline nowMs subjects).Pairwise
        (fun a b => subjectLe nowMs a b = true)) ∧
    (∀ nowMs : Int, getDaysUntilDeadline nowMs none = JsDays.inf) ∧
    (∀ (nowMs dl : Int), dl ≤ nowMs →
      getDaysUntilDeadline nowMs (some dl) = JsDays.fin 0) ∧
    (∀ (nowMs : Int) (subjects : List Subject) (i j : ℕ),
      i < (sortSubjectsByDeadline nowMs subjects).length →
      j < (sortSubjectsByDeadline nowMs subjects).length →
      subjectLe nowMs ((sortSubjectsByDeadline nowMs subjects).getD i blankSubject)
        ((sortSubjectsByDeadline nowMs subjects).getD j blankSubject) = false →
      j < i) := by
  refine ⟨?_, ?_, ?_, ?_, ?_⟩
  · intro nowMs subjects; exact sortBy_perm _ _
  · intro nowMs subjects
    exact sortBy_pairwise (subjectLe_total nowMs) (subjectLe_trans nowMs) subjects
  · intro nowMs; rfl
  · intro nowMs dl h
    have h1 : (0 : ℤ) ≤ (-(dl - nowMs)).fdiv msPerDay :=
      Int.fdiv_nonneg (by omega) (by norm_num [msPerDay])
    simp only [getDaysUntilDeadline]
    rw [if_neg (by omega)]
  · intro nowMs subjects i j hi hj hlt
    have hpw : (sortSubjectsByDeadline nowMs subjects).Pairwise
        (fun a b => subjectLe nowMs a b = true) :=
      sortBy_pairwise (subjectLe_total nowMs) (subjectLe_trans nowMs) subjects
    by_contra hcon
    push_neg at hcon
    rcases Nat.lt_or_ge i j with hij | hij
    · have := (List.pairwise_iff_getElem.mp hpw) i j hi hj hij
      rw [List.getD_eq_getElem _ _ hi, List.getD_eq_getElem _ _ hj] at hlt
      rw [hlt] at this
      exact Bool.false_ne_true this
    · have hii : i = j := by omega
      subst hii
      rcases subjectLe_total nowMs ((sortSubjectsByDeadline nowMs subjects).getD i blankSubject)
        ((sortSubjectsByDeadline nowMs subjects).getD i blankSubject) with hr | hr <;>
        rw [hlt] at hr <;> exact Bool.false_ne_true hr

/-- C7 counterexample: with `now = 0`, subject `B` has deadline instant 2
and subject `A` deadline instant 1 — `A`'s deadline is strictly earlier —
yet both have 1 day-until-deadline, the comparator ties, the stable sort
keeps the input order, and the earlier-deadline subject `A` ends up
strictly after `B`.  This refutes "for any two subjects with deadlines,
the one with the earlier deadline appears no later in the sorted
order". -/
theorem sortSubjectsByDeadline_counterexample :
    sortSubjectsByDeadline 0
      [{ id := "1", name := "B", deadline := some 2 },
       { id := "2", name := "A", deadline := some 1 }] =
      [{ id := "1", name := "B", deadline := some 2 },
       { id := "2", name := "A", deadline := some 1 }] ∧
    ((sortSubjectsByDeadline 0
      [{ id := "1", name := "B", deadline := some 2 },
       { id := "2", name := "A", deadline := some 1 }]).getD 0 blankSubject).deadline =
      some 2 ∧
    ((sortSubjectsByDeadline 0
      [{ id := "1", name := "B", deadline := some 2 },
       { id := "2", name := "A", deadline := some 1 }]).getD 1 blankSubject).deadline =
      some 1 ∧ (1 : ℤ) < 2 := by
  refine ⟨by decide, by decide, by decide, by decide⟩

/-- C7 witness for the amended statement: concrete uses of every part
with every hypothesis discharged (in the two-subject list, position 1 of
the sorted output has strictly more days-until-deadline than position 0,
so part 5 concludes `0 < 1`). -/
theorem sortSubjectsByDeadline_spec_witness :
    (sortSubjectsByDeadline 0
      [{ id := "2", name := "A", deadline := some 1 }]).Perm
      [{ id := "2", name := "A", deadline := some 1 }] ∧
    getDaysUntilDeadline 5 (some (-3)) = JsDays.fin 0 ∧
    (0 : ℕ) < 1 := by
  refine ⟨sortSubjectsByDeadline_spec.1 0 _,
    sortSubjectsByDeadline_spec.2.2.2.1 5 (-3) (by norm_num), ?_⟩
  exact sortSubjectsByDeadline_spec.2.2.2.2 0
    [{ id := "1", name := "B", deadline := some (msPerDay + 1) },
     { id := "2", name := "A", deadline := some 1 }] 1 0
    (by decide) (by decide) (by decide)

theorem tryGenerate_error_of_trigger (clock : Clock)
    (complete : String → CompletionOutcome) (data : StudyFormData)
    (h : fallbackTriggered clock complete data) :
    ∃ e, tryGenerateStudyPlan clock complete data = Except.error e := by
  rcases h with ⟨e, he⟩ | he | ⟨c, hc, hm⟩ | ⟨c, s, hc, hm, hp⟩
  · exact ⟨e, by simp [tryGenerateStudyPlan, he]⟩
  · exact ⟨"No response from Gemini", by simp [tryGenerateStudyPlan, he]⟩
  · exact ⟨"Could not parse JSON from Gemini response",
      by simp [tryGenerateStudyPlan, hc, hm]⟩
  · exact ⟨"SyntaxError: JSON.parse", by simp [tryGenerateStudyPlan, hc, hm, hp]⟩

theorem generateStudyPlan_fallback_of_trigger (clock : Clock)
    (complete : String → CompletionOutcome) (data : StudyFormData)
    (h : fallbackTriggered clock complete data) :
    generateStudyPlan clock complete data =
      studyPlanResultToJs (generateFallbackStudyPlan clock data) := by
  obtain ⟨e, he⟩ := tryGenerate_error_of_trigger clock complete data h
  simp [generateStudyPlan, he]

/-- C1: for every input, clock and completion behavior, whenever the
remote call throws, or the response has no content, or the content has no
brace pair, or the extracted substring fails `JSON.parse`, the caller of
`generateStudyPlan` receives, as an ordinary return value, exactly the
result of the deterministic fallback planner — the `try`/`catch` at lines
59-121 converts every such failure into `generateFallbackStudyPlan(data)`,
and `generateStudyPlan` is total by construction. -/
theorem generateStudyPlan_never_throws (clock : Clock)
    (complete : String → CompletionOutcome) (data : StudyFormData)
    (h : fallbackTriggered clock complete data) :
    generateStudyPlan clock complete data =
      studyPlanResultToJs (generateFallbackStudyPlan clock data) :=
  generateStudyPlan_fallback_of_trigger clock complete data h

/-- C1 witness: a failing remote call at a concrete input. -/
theorem generateStudyPlan_never_throws_witness :
    generateStudyPlan ⟨0, 0⟩ (fun _ => CompletionOutcome.error "network error") ⟨[], 4⟩ =
      studyPlanResultToJs (generateFallbackStudyPlan ⟨0, 0⟩ ⟨[], 4⟩) :=
  generateStudyPlan_never_throws ⟨0, 0⟩ _ ⟨[], 4⟩ (Or.inl ⟨"network error", rfl⟩)

/-- C2 counterexample: the claim says `generatePlan` "fails by throwing
(its returned promise rejects) whenever the remote completion call errors
or the completion output cannot be parsed".  Here the completion output
(`"no json here"`) cannot be parsed, yet the exported operation
(`generateStudyPlan`, the only generation entry point) completes normally
and hands the caller the fallback plan: the `catch` at line 116 swallows
the failure, so no error ever propagates. -/
theorem generateStudyPlan_rejects_counterexample :
    generateStudyPlan ⟨0, 0⟩
      (fun _ => CompletionOutcome.success (some "no json here")) ⟨[], 4⟩ =
      studyPlanResultToJs (generateFallbackStudyPlan ⟨0, 0⟩ ⟨[], 4⟩) := rfl

/-- C2 (amended): the failure the spec attributes to `generatePlan` is
internal: whenever the remote call errors, no content is returned, no
brace pair exists, or `JSON.parse` fails, the `try` block (modelled as
`tryGenerateStudyPlan`) does end in a thrown error — but that error is
caught inside `generateStudyPlan` itself, which then resolves with the
fallback plan, so the caller never observes a rejection.  (A parsed
object with missing fields is not a failure at all: the `as
StudyPlanResult` cast checks nothing.) -/
theorem tryGenerateStudyPlan_fails_internally (clock : Clock)
    (complete : String → CompletionOutcome) (data : StudyFormData)
    (h : fallbackTriggered clock complete data) :
    (∃ e, tryGenerateStudyPlan clock complete data = Except.error e) ∧
    generateStudyPlan clock complete data =
      studyPlanResultToJs (generateFallbackStudyPlan clock data) :=
  ⟨tryGenerate_error_of_trigger clock complete data h,
   generateStudyPlan_fallback_of_trigger clock complete data h⟩

/-- C2 witness for the amended statement: a response with no content. -/
theorem tryGenerateStudyPlan_fails_internally_witness :
    (∃ e, tryGenerateStudyPlan ⟨0, 0⟩
        (fun _ => CompletionOutcome.success none) ⟨[], 4⟩ = Except.error e) ∧
    generateStudyPlan ⟨0, 0⟩ (fun _ => CompletionOutcome.success none) ⟨[], 4⟩ =
      studyPlanResultToJs (generateFallbackStudyPlan ⟨0, 0⟩ ⟨[], 4⟩) :=
  tryGenerateStudyPlan_fails_internally ⟨0, 0⟩ _ ⟨[], 4⟩ (Or.inr (Or.inl rfl))

/-- C3: the fallback planner is total (this embedding of it is a plain
function into `StudyPlanResult`), always returns exactly 5 days, the
`i`-th day carries the weekday name and formatted date of calendar day
`today + i` — five consecutive calendar dates starting today — and an
empty subject list is replaced by the single `"General Study"`
placeholder whose deadline is the current instant. -/
theorem fallbackPlan_five_consecutive_days (clock : Clock) (data : StudyFormData) :
    (generateFallbackStudyPlan clock data).studyPlan.length = 5 ∧
    (∀ i : ℕ, i < 5 →
      ((generateFallbackStudyPlan clock data).studyPlan.getD i blankDay).day =
        weekdayName (clock.todayEpochDay + i) ∧
      ((generateFallbackStudyPlan clock data).studyPlan.getD i blankDay).date =
        formatDateStr (clock.todayEpochDay + i)) ∧
    (data.subjects = [] →
      availableSubjects clock.nowMs data.subjects =
        [{ id := "1", name := "General Study", deadline := some clock.nowMs }]) := by
  refine ⟨by simp [generateFallbackStudyPlan], ?_, ?_⟩
  · intro i hi
    rw [fallback_studyPlan_getD clock data hi blankDay]
    constructor
    · simp only [fallbackDayAt]
      split
      · rfl
      · rfl
    · simp only [fallbackDayAt]
      split
      · rfl
      · rfl
  · intro h
    simp [availableSubjects, sortSubjectsByDeadline, sortBy, h]

/-- C3 witness: length, a concrete date slot, and the empty-list
substitution at a concrete clock. -/
theorem fallbackPlan_five_consecutive_days_witness :
    (generateFallbackStudyPlan ⟨0, 10⟩ ⟨[], 4⟩).studyPlan.length = 5 ∧
    ((generateFallbackStudyPlan ⟨0, 10⟩ ⟨[], 4⟩).studyPlan.getD 2 blankDay).date =
      formatDateStr ((10 : ℤ) + (2 : ℕ)) ∧
    availableSubjects 0 ([] : List Subject) =
      [{ id := "1", name := "General Study", deadline := some 0 }] := by
  refine ⟨(fallbackPlan_five_consecutive_days ⟨0, 10⟩ ⟨[], 4⟩).1, ?_, ?_⟩
  · exact ((fallbackPlan_five_consecutive_days ⟨0, 10⟩ ⟨[], 4⟩).2.1 2 (by norm_num)).2
  · exact (fallbackPlan_five_consecutive_days ⟨0, 10⟩ ⟨[], 4⟩).2.2 rfl

/-- C4: for every clock, every subject list, and every positive integer
daily-hours budget, every one of the five produced days has `hours` at
most the budget: multi-subject days use it exactly, and
`⌈m·0.8⌉ ≤ m` and `⌈m·0.5⌉ ≤ m` for a positive integer `m`. -/
theorem fallback_hours_within_budget (clock : Clock) (data : StudyFormData)
    (m : ℤ) (hpos : 0 < m) (hdh : data.dailyHours = (m : ℚ))
    (i : ℕ) (hi : i < 5) :
    ((generateFallbackStudyPlan clock data).studyPlan.getD i blankDay).hours ≤ (m : ℚ) := by
  rw [fallback_studyPlan_getD clock data hi blankDay]
  have hm0 : (0 : ℚ) ≤ (m : ℚ) := by exact_mod_cast hpos.le
  simp only [fallbackDayAt]
  split
  · simp [hdh]
  · show ((⌈data.dailyHours * _⌉ : ℤ) : ℚ) ≤ (m : ℚ)
    rw [hdh]
    split
    · have h1 : (m : ℚ) * 0.8 ≤ ((m : ℤ) : ℚ) := by linarith
      have h2 : (⌈(m : ℚ) * 0.8⌉ : ℤ) ≤ m := Int.ceil_le.mpr h1
      exact_mod_cast h2
    · have h1 : (m : ℚ) * 0.5 ≤ ((m : ℤ) : ℚ) := by linarith
      have h2 : (⌈(m : ℚ) * 0.5⌉ : ℤ) ≤ m := Int.ceil_le.mpr h1
      exact_mod_cast h2

/-- C4 witness: a concrete day of a concrete plan stays within budget. -/
theorem fallback_hours_within_budget_witness :
    ((generateFallbackStudyPlan ⟨0, 0⟩ ⟨[], 4⟩).studyPlan.getD 0 blankDay).hours ≤
      ((4 : ℤ) : ℚ) :=
  fallback_hours_within_budget ⟨0, 0⟩ ⟨[], 4⟩ 4 (by norm_num) (by norm_num) 0 (by norm_num)

/-- C5: in every produced day, a multi-subject day (even index with at
least two available subjects) is assigned the full daily budget, and a
single-subject day is assigned `⌈dailyHours·0.8⌉` when its priority is
high and `⌈dailyHours·0.5⌉` otherwise. -/
theorem fallback_hours_formula (clock : Clock) (data : StudyFormData)
    (i : ℕ) (hi : i < 5) :
    ((i % 2 = 0 ∧ (availableSubjects clock.nowMs data.subjects).length > 1) →
      ((generateFallbackStudyPlan clock data).studyPlan.getD i blankDay).hours =
        data.dailyHours) ∧
    (¬(i % 2 = 0 ∧ (availableSubjects clock.nowMs data.subjects).length > 1) →
      ((generateFallbackStudyPlan clock data).studyPlan.getD i blankDay).hours =
        (if ((generateFallbackStudyPlan clock data).studyPlan.getD i blankDay).priority =
            Priority.high
         then ((⌈data.dailyHours * (0.8 : ℚ)⌉ : ℤ) : ℚ)
         else ((⌈data.dailyHours * (0.5 : ℚ)⌉ : ℤ) : ℚ))) := by
  rw [fallback_studyPlan_getD clock data hi blankDay]
  constructor
  · intro h
    simp [fallbackDayAt, h]
  · intro h
    simp only [fallbackDayAt, if_neg h]
    split <;> simp [*]

/-- C5 witness: with no subjects there is a single available subject, so
day 0 is a single-subject day and uses the ceiling formula. -/
theorem fallback_hours_formula_witness :
    ((generateFallbackStudyPlan ⟨0, 0⟩ ⟨[], 4⟩).studyPlan.getD 0 blankDay).hours =
      (if ((generateFallbackStudyPlan ⟨0, 0⟩ ⟨[], 4⟩).studyPlan.getD 0 blankDay).priority =
          Priority.high
       then ((⌈(4 : ℚ) * (0.8 : ℚ)⌉ : ℤ) : ℚ)
       else ((⌈(4 : ℚ) * (0.5 : ℚ)⌉ : ℤ) : ℚ)) := by
  exact (fallback_hours_formula ⟨0, 0⟩ ⟨[], 4⟩ 0 (by norm_num)).2 (by decide)

theorem priority_ite_eq_specHighest (p q : Priority) :
    (if p = Priority.high ∨ q = Priority.high then Priority.high
     else if p = Priority.medium ∨ q = Priority.medium then Priority.medium
     else Priority.low) = specHighestPriority p q := by
  cases p <;> cases q <;> rfl

/-- C6: `getPriorityByDeadline` yields high exactly on at most 7
days-until-deadline, medium on more than 7 but at most 14, and low
otherwise (`Infinity` compares above both bounds); and on every
multi-subject day the produced priority is the maximum of the two
constituent subjects' priorities under high > medium > low
(`specHighestPriority`, written from the spec's words). -/
theorem fallback_priority_derivation :
    (∀ (nowMs : Int) (s : Subject),
      ((getDaysUntilDeadline nowMs s.deadline).ble (JsDays.fin 7) = true →
        getPriorityByDeadline nowMs s = Priority.high) ∧
      ((getDaysUntilDeadline nowMs s.deadline).ble (JsDays.fin 7) = false →
        (getDaysUntilDeadline nowMs s.deadline).ble (JsDays.fin 14) = true →
        getPriorityByDeadline nowMs s = Priority.medium) ∧
      ((getDaysUntilDeadline nowMs s.deadline).ble (JsDays.fin 14) = false →
        getPriorityByDeadline nowMs s = Priority.low)) ∧
    (∀ (clock : Clock) (data : StudyFormData) (i : ℕ), i < 5 → i % 2 = 0 →
      (availableSubjects clock.nowMs data.subjects).length > 1 →
      ((generateFallbackStudyPlan clock data).studyPlan.getD i blankDay).priority =
        specHighestPriority
          (getPriorityByDeadline clock.nowMs
            ((availableSubjects clock.nowMs data.subjects).getD
              (i % (availableSubjects clock.nowMs data.subjects).length) blankSubject))
          (getPriorityByDeadline clock.nowMs
            ((availableSubjects clock.nowMs data.subjects).getD
              ((i + 1) % (availableSubjects clock.nowMs data.subjects).length)
              blankSubject))) := by
  constructor
  · intro nowMs s
    refine ⟨?_, ?_, ?_⟩
    · intro h7
      simp [getPriorityByDeadline, h7]
    · intro h7 h14
      simp [getPriorityByDeadline, h7, h14]
    · intro h14
      have h7 : (getDaysUntilDeadline nowMs s.deadline).ble (JsDays.fin 7) = false := by
        cases hd : getDaysUntilDeadline nowMs s.deadline with
        | fin n =>
          rw [hd] at h14
          simp only [JsDays.ble, decide_eq_false_iff_not] at h14 ⊢
          omega
        | inf => rfl
      simp [getPriorityByDeadline, h7, h14]
  · intro clock data i hi heven hlen
    rw [fallback_studyPlan_getD clock data hi blankDay]
    have hcond : i % 2 = 0 ∧ (availableSubjects clock.nowMs data.subjects).length > 1 :=
      ⟨heven, hlen⟩
    simp only [fallbackDayAt, if_pos hcond]
    exact priority_ite_eq_specHighest _ _

/-- C6 witness: a deadline of this instant is high priority, and day 0 of
a two-subject plan carries the maximum of its constituents' priorities. -/
theorem fallback_priority_derivation_witness :
    getPriorityByDeadline 0 { id := "1", name := "X", deadline := some 0 } = Priority.high ∧
    ((generateFallbackStudyPlan ⟨0, 0⟩
        ⟨[{ id := "a", name := "A", deadline := some 0 },
          { id := "b", name := "B", deadline := some 1 }], 4⟩).studyPlan.getD 0
        blankDay).priority =
      specHighestPriority
        (getPriorityByDeadline 0
          ((availableSubjects 0 [{ id := "a", name := "A", deadline := some 0 },
              { id := "b", name := "B", deadline := some 1 }]).getD
            (0 % (availableSubjects 0 [{ id := "a", name := "A", deadline := some 0 },
              { id := "b", name := "B", deadline := some 1 }]).length) blankSubject))
        (getPriorityByDeadline 0
          ((availableSubjects 0 [{ id := "a", name := "A", deadline := some 0 },
              { id := "b", name := "B", deadline := some 1 }]).getD
            ((0 + 1) % (availableSubjects 0 [{ id := "a", name := "A", deadline := some 0 },
              { id := "b", name := "B", deadline := some 1 }]).length) blankSubject)) := by
  constructor
  · exact (fallback_priority_derivation.1 0
      { id := "1", name := "X", deadline := some 0 }).1 (by decide)
  · exact fallback_priority_derivation.2 ⟨0, 0⟩
      ⟨[{ id := "a", name := "A", deadline := some 0 },
        { id := "b", name := "B", deadline := some 1 }], 4⟩ 0
      (by norm_num) (by norm_num) (by decide)

/-- C8: for each day index 0-4, the day is multi-subject exactly when the
index is even and at least two subjects are available; a multi-subject
day comma-joins the subjects at round-robin positions `i mod n` and
`(i+1) mod n` of the available (sorted) list, and every other day is a
single-subject day using position `i mod n`. -/
theorem fallback_day_subject_assignment (clock : Clock) (data : StudyFormData)
    (i : ℕ) (hi : i < 5) :
    ((i % 2 = 0 ∧ (availableSubjects clock.nowMs data.subjects).length > 1) →
      ((generateFallbackStudyPlan clock data).studyPlan.getD i blankDay).subject =
        ((availableSubjects clock.nowMs data.subjects).getD
          (i % (availableSubjects clock.nowMs data.subjects).length) blankSubject).name ++
        ", " ++
        ((availableSubjects clock.nowMs data.subjects).getD
          ((i + 1) % (availableSubjects clock.nowMs data.subjects).length)
          blankSubject).name) ∧
    (¬(i % 2 = 0 ∧ (availableSubjects clock.nowMs data.subjects).length > 1) →
      ((generateFallbackStudyPlan clock data).studyPlan.getD i blankDay).subject =
        ((availableSubjects clock.nowMs data.subjects).getD
          (i % (availableSubjects clock.nowMs data.subjects).length) blankSubject).name) := by
  rw [fallback_studyPlan_getD clock data hi blankDay]
  constructor
  · intro h
    simp only [fallbackDayAt, if_pos h]
  · intro h
    simp only [fallbackDayAt, if_neg h]

/-- C8 witness: the multi-subject day 0 of a two-subject plan and the
single-subject day 0 of an empty-input plan. -/
theorem fallback_day_subject_assignment_witness :
    ((generateFallbackStudyPlan ⟨0, 0⟩
        ⟨[{ id := "a", name := "A", deadline := some 0 },
          { id := "b", name := "B", deadline := some 1 }], 4⟩).studyPlan.getD 0
        blankDay).subject =
      ((availableSubjects 0 [{ id := "a", name := "A", deadline := some 0 },
          { id := "b", name := "B", deadline := some 1 }]).getD
        (0 % (availableSubjects 0 [{ id := "a", name := "A", deadline := some 0 },
          { id := "b", name := "B", deadline := some 1 }]).length) blankSubject).name ++
      ", " ++
      ((availableSubjects 0 [{ id := "a", name := "A", deadline := some 0 },
          { id := "b", name := "B", deadline := some 1 }]).getD
        ((0 + 1) % (availableSubjects 0 [{ id := "a", name := "A", deadline := some 0 },
          { id := "b", name := "B", deadline := some 1 }]).length) blankSubject).name ∧
    ((generateFallbackStudyPlan ⟨0, 0⟩ ⟨[], 4⟩).studyPlan.getD 1 blankDay).subject =
      ((availableSubjects 0 ([] : List Subject)).getD
        (1 % (availableSubjects 0 ([] : List Subject)).length) blankSubject).name := by
  constructor
  · exact (fallback_day_subject_assignment ⟨0, 0⟩
      ⟨[{ id := "a", name := "A", deadline := some 0 },
        { id := "b", name := "B", deadline := some 1 }], 4⟩ 0 (by norm_num)).1
      ⟨by norm_num, by decide⟩
  · exact (fallback_day_subject_assignment ⟨0, 0⟩ ⟨[], 4⟩ 1 (by norm_num)).2 (by decide)

/-- C10: with an empty subject list every one of the five days is a
single-subject day for the `"General Study"` placeholder (whose deadline
is the current instant, hence 0 days away and high priority), so every
day has priority high and hours `⌈dailyHours·0.8⌉`, and day 4
additionally carries the `" - prepare for assessment"` notes suffix. -/
theorem fallback_empty_subjects_general_study (clock : Clock) (dh : ℚ)
    (i : ℕ) (hi : i < 5) :
    ((generateFallbackStudyPlan clock ⟨[], dh⟩).studyPlan.getD i blankDay).subject =
      "General Study" ∧
    ((generateFallbackStudyPlan clock ⟨[], dh⟩).studyPlan.getD i blankDay).priority =
      Priority.high ∧
    ((generateFallbackStudyPlan clock ⟨[], dh⟩).studyPlan.getD i blankDay).hours =
      ((⌈dh * (0.8 : ℚ)⌉ : ℤ) : ℚ) ∧
    (i = 4 → ((generateFallbackStudyPlan clock ⟨[], dh⟩).studyPlan.getD i blankDay).notes =
      getSubjectNotes "General Study" ++ " - prepare for assessment") := by
  rw [fallback_studyPlan_getD clock ⟨[], dh⟩ hi blankDay]
  have havail : availableSubjects clock.nowMs ([] : List Subject) =
      [{ id := "1", name := "General Study", deadline := some clock.nowMs }] := by
    simp [availableSubjects, sortSubjectsByDeadline, sortBy]
  have hpri : getPriorityByDeadline clock.nowMs
      { id := "1", name := "General Study", deadline := some clock.nowMs } =
      Priority.high := by
    simp [getPriorityByDeadline, getDaysUntilDeadline, JsDays.ble, Int.zero_fdiv]
  refine ⟨?_, ?_, ?_, ?_⟩
  · simp [fallbackDayAt, havail, Nat.mod_one]
  · simp [fallbackDayAt, havail, hpri, Nat.mod_one]
  · simp [fallbackDayAt, havail, hpri, Nat.mod_one]
  · intro h4
    subst h4
    simp [fallbackDayAt, havail, Nat.mod_one]

/-- C10 witness: day 4 of the empty-input plan at a concrete clock. -/
theorem fallback_empty_subjects_general_study_witness :
    ((generateFallbackStudyPlan ⟨0, 0⟩ ⟨[], 4⟩).studyPlan.getD 4 blankDay).subject =
      "General Study" ∧
    ((generateFallbackStudyPlan ⟨0, 0⟩ ⟨[], 4⟩).studyPlan.getD 4 blankDay).priority =
      Priority.high ∧
    ((generateFallbackStudyPlan ⟨0, 0⟩ ⟨[], 4⟩).studyPlan.getD 4 blankDay).hours =
      ((⌈(4 : ℚ) * (0.8 : ℚ)⌉ : ℤ) : ℚ) ∧
    ((generateFallbackStudyPlan ⟨0, 0⟩ ⟨[], 4⟩).studyPlan.getD 4 blankDay).notes =
      getSubjectNotes "General Study" ++ " - prepare for assessment" := by
  obtain ⟨h1, h2, h3, h4⟩ := fallback_empty_subjects_general_study ⟨0, 0⟩ 4 4 (by norm_num)
  exact ⟨h1, h2, h3, h4 rfl⟩

theorem firstIdxOf_append_of_notMem (c : Char) {l₁ : List Char}
    (h : ∀ x ∈ l₁, x ≠ c) (l₂ : List Char) :
    firstIdxOf c (l₁ ++ l₂) = (firstIdxOf c l₂).map (· + l₁.length) := by
  induction l₁ with
  | nil =>
    simp only [List.nil_append, List.length_nil]
    cases firstIdxOf c l₂ <;> simp
  | cons x xs ih =>
    have hx : x ≠ c := h x (List.mem_cons_self x xs)
    simp only [List.cons_append, firstIdxOf, if_neg hx, List.append_eq]
    rw [ih (fun y hy => h y (List.mem_cons_of_mem x hy))]
    cases firstIdxOf c l₂ <;> simp [List.length_cons] <;> omega

theorem jsonMatch_extract (p o q : String) (mid : List Char)
    (hp : ∀ x ∈ p.data, x ≠ openBraceChar)
    (hq : ∀ x ∈ q.data, x ≠ closeBraceChar)
    (ho : o.data = openBraceChar :: (mid ++ [closeBraceChar])) :
    jsonMatch (p ++ o ++ q) = some o := by
  have hdata : (p ++ o ++ q).data = p.data ++ o.data ++ q.data := by
    rw [String.data_append, String.data_append]
  have holen : o.data.length = mid.length + 2 := by
    rw [ho]; simp
  have hL : (p ++ o ++ q).data.length =
      p.data.length + (mid.length + 2) + q.data.length := by
    rw [hdata]; simp [holen]; omega
  have h1 : firstIdxOf openBraceChar ((p ++ o ++ q).data) = some p.data.length := by
    rw [hdata, List.append_assoc,
      firstIdxOf_append_of_notMem openBraceChar hp (o.data ++ q.data), ho]
    simp [firstIdxOf]
  have h2 : lastIdxOf closeBraceChar ((p ++ o ++ q).data) =
      some (p.data.length + mid.length + 1) := by
    unfold lastIdxOf
    have hrev : ((p ++ o ++ q).data).reverse =
        q.data.reverse ++
          (closeBraceChar :: ((mid.reverse ++ [openBraceChar]) ++ p.data.reverse)) := by
      rw [hdata, ho]
      simp [List.reverse_append]
    rw [hrev, firstIdxOf_append_of_notMem closeBraceChar
      (fun x hx => hq x (List.mem_reverse.mp hx)) _]
    have hfirst : firstIdxOf closeBraceChar
        (closeBraceChar :: ((mid.reverse ++ [openBraceChar]) ++ p.data.reverse)) =
        some 0 := by
      simp [firstIdxOf]
    rw [hfirst]
    simp only [Option.map_some', Option.some.injEq, List.length_reverse]
    omega
  have hred : jsonMatch (p ++ o ++ q) =
      if p.data.length < p.data.length + mid.length + 1 then
        some (String.mk (((p ++ o ++ q).data.drop p.data.length).take
          (p.data.length + mid.length + 1 - p.data.length + 1)))
      else none := by
    unfold jsonMatch
    rw [h1, h2]
  rw [hred, if_pos (by omega)]
  have hdrop : ((p ++ o ++ q).data).drop p.data.length = o.data ++ q.data := by
    rw [hdata, List.append_assoc]
    exact List.drop_left _ _
  have hk : p.data.length + mid.length + 1 - p.data.length + 1 = o.data.length := by
    omega
  rw [hdrop, hk, List.take_left]

/-- C9 (amended): whenever the completion content is a valid JSON object
of `StudyPlanResult` shape surrounded by prose that adds no `\x7b` before
it and no `\x7d` after it, `generateStudyPlan` locates exactly the
substring from the first `\x7b` to the last `\x7d` — which is then the
embedded object — parses it, and returns the parsed object to the caller.
(Prose containing braces defeats the greedy match; see the
counterexample.) -/
theorem generateStudyPlan_extracts_embedded_json
    (clock : Clock) (complete : String → CompletionOutcome) (data : StudyFormData)
    (p o q : String) (mid : List Char) (j : JsValue)
    (hresp : complete (buildPrompt clock data) =
      CompletionOutcome.success (some (p ++ o ++ q)))
    (hp : ∀ x ∈ p.data, x ≠ openBraceChar)
    (hq : ∀ x ∈ q.data, x ≠ closeBraceChar)
    (ho : o.data = openBraceChar :: (mid ++ [closeBraceChar]))
    (hparse : parseJson o = some j)
    (_hshape : isStudyPlanResultShape j = true) :
    jsonMatch (p ++ o ++ q) = some o ∧
    generateStudyPlan clock complete data = j := by
  have hm := jsonMatch_extract p o q mid hp hq ho
  exact ⟨hm, by simp [generateStudyPlan, tryGenerateStudyPlan, hresp, hm, hparse]⟩

/-- C9 counterexample: the content
`"\x7b...\x7d oops\x7d"` contains a valid JSON object for a
`StudyPlanResult` (first conjunct) surrounded by prose (empty before,
`" oops\x7d"` after), but because the trailing prose contains a `\x7d`
the greedy match extends past the object, `JSON.parse` fails on the
extracted substring, and `generateStudyPlan` returns the fallback plan
rather than the embedded object — refuting the claim for arbitrary
surrounding prose. -/
theorem generateStudyPlan_prose_counterexample :
    parseJson "\x7b\"studyPlan\":[],\"motivationalTip\":\"hi\"\x7d" =
      some (JsValue.obj [("studyPlan", JsValue.arr []),
        ("motivationalTip", JsValue.str "hi")]) ∧
    generateStudyPlan ⟨0, 0⟩
      (fun _ => CompletionOutcome.success
        (some "\x7b\"studyPlan\":[],\"motivationalTip\":\"hi\"\x7d oops\x7d")) ⟨[], 4⟩ =
      studyPlanResultToJs (generateFallbackStudyPlan ⟨0, 0⟩ ⟨[], 4⟩) :=
  ⟨rfl, rfl⟩

/-- C9 witness for the amended statement: brace-free prose around a
one-day `StudyPlanResult` object is stripped and the object returned. -/
theorem generateStudyPlan_extracts_embedded_json_witness :
    jsonMatch ("Sure! Here is the plan: " ++
        "\x7b\"studyPlan\":[\x7b\"day\":\"Mon\",\"date\":\"Jan 1, 2025\",\"subject\":\"Math\",\"hours\":2,\"notes\":\"n\",\"priority\":\"high\"\x7d],\"motivationalTip\":\"go\"\x7d" ++
        " Enjoy.") =
      some "\x7b\"studyPlan\":[\x7b\"day\":\"Mon\",\"date\":\"Jan 1, 2025\",\"subject\":\"Math\",\"hours\":2,\"notes\":\"n\",\"priority\":\"high\"\x7d],\"motivationalTip\":\"go\"\x7d" ∧
    generateStudyPlan ⟨0, 0⟩
      (fun _ => CompletionOutcome.success (some ("Sure! Here is the plan: " ++
        "\x7b\"studyPlan\":[\x7b\"day\":\"Mon\",\"date\":\"Jan 1, 2025\",\"subject\":\"Math\",\"hours\":2,\"notes\":\"n\",\"priority\":\"high\"\x7d],\"motivationalTip\":\"go\"\x7d" ++
        " Enjoy."))) ⟨[], 4⟩ =
      JsValue.obj [("studyPlan", JsValue.arr [JsValue.obj
        [("day", JsValue.str "Mon"), ("date", JsValue.str "Jan 1, 2025"),
         ("subject", JsValue.str "Math"), ("hours", JsValue.num (mkRat 2 1)),
         ("notes", JsValue.str "n"), ("priority", JsValue.str "high")]]),
        ("motivationalTip", JsValue.str "go")] := by
  exact generateStudyPlan_extracts_embedded_json ⟨0, 0⟩ _ ⟨[], 4⟩
    "Sure! Here is the plan: "
    "\x7b\"studyPlan\":[\x7b\"day\":\"Mon\",\"date\":\"Jan 1, 2025\",\"subject\":\"Math\",\"hours\":2,\"notes\":\"n\",\"priority\":\"high\"\x7d],\"motivationalTip\":\"go\"\x7d"
    " Enjoy."
    ("\x7b\"studyPlan\":[\x7b\"day\":\"Mon\",\"date\":\"Jan 1, 2025\",\"subject\":\"Math\",\"hours\":2,\"notes\":\"n\",\"priority\":\"high\"\x7d],\"motivationalTip\":\"go\"\x7d".data.drop 1).dropLast
    (JsValue.obj [("studyPlan", JsValue.arr [JsValue.obj
      [("day", JsValue.str "Mon"), ("date", JsValue.str "Jan 1, 2025"),
       ("subject", JsValue.str "Math"), ("hours", JsValue.num (mkRat 2 1)),
       ("notes", JsValue.str "n"), ("priority", JsValue.str "high")]]),
      ("motivationalTip", JsValue.str "go")])
    rfl (by decide) (by decide) (by decide) rfl rfl
